import Mathlib

/-!
Shallow embedding of the rule-based adverse-event detector
(`src/genai/adverse_events.py`): the safety lexicon, `detect_adverse_events`,
`determine_severity`, `calculate_confidence`, `get_safety_category`,
`extract_context` and `validate_adverse_events`, together with proofs of the
specified properties. Strings are modelled as lists of characters (Python
strings are sequences of code points); Python floats are modelled as exact
rationals; Python substring search (`in`, `str.find`) is modelled by
`strContains` / `strFind`.
-/

abbrev Str := List Char

/-- Python `str.lower()` (ASCII case folding, as used by the detector). -/
def pyLower (s : Str) : Str := s.map Char.toLower

/-- Python `str.find`: index of the first occurrence of `need` in `hay`,
`none` when absent (Python returns `-1`). -/
def strFind (hay need : Str) : Option Nat :=
  if need.isPrefixOf hay then some 0
  else
    match hay with
    | [] => none
    | _ :: t => (strFind t need).map (· + 1)

/-- Python `need in hay`: substring containment. -/
def strContains (hay need : Str) : Bool :=
  (strFind hay need).isSome

/-- Python whitespace characters stripped by `str.strip()` (ASCII range). -/
def pySpace (c : Char) : Bool :=
  c = ' ' || c = '\t' || c = '\n' || c = '\x0d' || c = '\x0b' || c = '\x0c'

/-- Python `str.strip()`. -/
def pyStrip (s : Str) : Str :=
  ((s.dropWhile pySpace).reverse.dropWhile pySpace).reverse

/-- Python `s[a:b]` for `a ≤ b` (clamping is already encoded by callers). -/
def pySlice (s : Str) (a b : Nat) : Str :=
  (s.drop a).take (b - a)

/-- `event_name.replace('_', ' ')`. -/
def underscoreToSpace (s : Str) : Str :=
  s.map (fun c => if c = '_' then ' ' else c)

/-- Python `str.title()` for ASCII text: first letter of each run of letters
upper-cased, the rest lower-cased. -/
def pyTitleAux : Bool → Str → Str
  | _, [] => []
  | prevAlpha, c :: rest =>
      (if c.isAlpha then (if prevAlpha then c.toLower else c.toUpper) else c)
        :: pyTitleAux c.isAlpha rest

def pyTitle (s : Str) : Str := pyTitleAux false s

/-- One entry of the safety lexicon: trigger keywords plus the tiered severity
indicators, kept in declaration order (Python dict preserves insertion order). -/
structure EventData where
  keywords : List Str
  severity_indicators : List (Str × List Str)
deriving DecidableEq

/-- The `SAFETY_CONCERNS` table of `adverse_events.py`, in declaration order. -/
def SAFETY_CONCERNS : List (Str × EventData) :=
  [ ("injury".data,
     { keywords := ["injury".data, "hurt".data, "injured".data, "wound".data,
                    "cut".data, "bruise".data, "broken".data]
       severity_indicators :=
         [("minor".data, ["small".data, "slight".data, "little".data]),
          ("moderate".data, ["bad".data, "serious".data]),
          ("severe".data, ["major".data, "severe".data, "emergency".data])] }),
    ("allergic_reaction".data,
     { keywords := ["allergic".data, "allergy".data, "reaction".data,
                    "rash".data, "swelling".data, "itchy".data]
       severity_indicators :=
         [("minor".data, ["mild".data, "slight".data]),
          ("moderate".data, ["bad".data, "uncomfortable".data]),
          ("severe".data, ["severe".data, "anaphylaxis".data, "emergency".data])] }),
    ("burn".data,
     { keywords := ["burn".data, "burned".data, "burning".data, "hot".data,
                    "scalded".data]
       severity_indicators :=
         [("minor".data, ["small".data, "minor".data]),
          ("moderate".data, ["painful".data, "blistered".data]),
          ("severe".data, ["severe".data, "third degree".data])] }),
    ("toxic_exposure".data,
     { keywords := ["toxic".data, "poison".data, "chemical".data,
                    "fumes".data, "exposure".data]
       severity_indicators :=
         [("minor".data, ["mild".data, "slight".data]),
          ("moderate".data, ["sick".data, "nauseous".data]),
          ("severe".data, ["poisoned".data, "emergency".data])] }),
    ("electrical_hazard".data,
     { keywords := ["shock".data, "electric".data, "electrical".data,
                    "sparks".data, "short circuit".data]
       severity_indicators :=
         [("minor".data, ["small".data, "minor".data]),
          ("moderate".data, ["painful".data, "burned".data]),
          ("severe".data, ["severe".data, "unconscious".data])] }),
    ("choking_hazard".data,
     { keywords := ["choke".data, "choking".data, "swallowed".data,
                    "stuck".data, "throat".data]
       severity_indicators :=
         [("minor".data, ["small".data, "coughed up".data]),
          ("moderate".data, ["difficulty".data, "breathing".data]),
          ("severe".data, ["can\x27t breathe".data, "emergency".data])] }) ]

/-- `determine_severity`: first tier (in declared order) with an indicator
occurring in the lowered text; defaults to `"mild"`. -/
def determine_severity (text : Str) (severity_indicators : List (Str × List Str)) : Str :=
  match severity_indicators.find? (fun p => p.2.any (fun i => strContains text i)) with
  | some p => p.1
  | none => "mild".data

/-- Negation words scanned by `calculate_confidence`. -/
def negations : List Str :=
  ["no".data, "not".data, "without".data, "never".data, "none".data]

/-- `calculate_confidence`: base 0.7, +0.1 for multiple keyword hits, +0.1 for
any severity indicator, −0.3 for a negation in the 20 characters before the
keyword's first occurrence, clamped to [0.1, 1.0]. -/
def calculate_confidence (text keyword : Str) (event_data : EventData) : ℚ :=
  let c1 : ℚ := 7/10
  let c2 : ℚ :=
    if 1 < (event_data.keywords.countP (fun kw => strContains text kw)) then c1 + 1/10
    else c1
  let c3 : ℚ :=
    if event_data.severity_indicators.any (fun p => p.2.any (fun i => strContains text i))
    then c2 + 1/10 else c2
  let c4 : ℚ :=
    match strFind text keyword with
    | some keyword_pos =>
        if 0 < keyword_pos then
          if negations.any (fun neg =>
              strContains (pySlice text (keyword_pos - 20) keyword_pos) neg)
          then c3 - 3/10 else c3
        else c3
    | none => c3
  min 1 (max (1/10) c4)

/-- The fixed category → label table of `get_safety_category`. -/
def safety_categories : List (Str × Str) :=
  [("injury".data, "Physical Harm".data),
   ("allergic_reaction".data, "Allergic Response".data),
   ("burn".data, "Thermal Injury".data),
   ("toxic_exposure".data, "Chemical Hazard".data),
   ("electrical_hazard".data, "Electrical Safety".data),
   ("choking_hazard".data, "Airway Obstruction".data)]

/-- `get_safety_category`: table lookup with title-cased fallback. -/
def get_safety_category (event_name : Str) : Str :=
  match safety_categories.find? (fun p => p.1 == event_name) with
  | some p => p.2
  | none => pyTitle (underscoreToSpace event_name)

/-- `extract_context`: a window of `context_length` characters on each side of
the first case-insensitive occurrence of the keyword in the original text,
stripped, with ellipsis markers where truncated; the keyword itself when it
cannot be located. -/
def extract_context (text keyword : Str) (context_length : Nat) : Str :=
  match strFind (pyLower text) (pyLower keyword) with
  | none => keyword
  | some keyword_pos =>
      let start := keyword_pos - context_length
      let stop := min text.length (keyword_pos + keyword.length + context_length)
      let context := pyStrip (pySlice text start stop)
      let context := if 0 < start then "...".data ++ context else context
      let context := if stop < text.length then context ++ "...".data else context
      context

/-- A raw detection record (the dict built by `detect_adverse_events`). -/
structure Detection where
  event : Str
  severity : Str
  confidence : ℚ
  safety_category : Str
  detected_phrase : Str
deriving DecidableEq

/-- `detect_adverse_events`: scan categories in declaration order; within a
category the first matching keyword wins and scanning stops (`break`). -/
def detect_adverse_events (text : Str) : List Detection :=
  let text_lower := pyLower text
  SAFETY_CONCERNS.filterMap (fun p =>
    (p.2.keywords.find? (fun kw => strContains text_lower kw)).map (fun kw =>
      { event := underscoreToSpace p.1
        severity := determine_severity text_lower p.2.severity_indicators
        confidence := calculate_confidence text_lower kw p.2
        safety_category := get_safety_category p.1
        detected_phrase := extract_context text kw 30 }))

/-- A record handed to `validate_adverse_events`: the function only reads the
optional `confidence` and `event` fields (`dict.get`). -/
structure EventRec where
  confidence : Option ℚ
  event : Option Str
deriving DecidableEq

/-- `event.get('confidence', 0)`. -/
def getConf (e : EventRec) : ℚ := e.confidence.getD 0

/-- The deduplication loop of `validate_adverse_events`: `seen_events` is the
set of event names already emitted. -/
def dedupAux : List (Option Str) → List EventRec → List EventRec
  | _, [] => []
  | seen, e :: rest =>
      if e.event ∈ seen then dedupAux seen rest
      else e :: dedupAux (e.event :: seen) rest

/-- `validate_adverse_events`: keep records with confidence > 0.3, then drop
records whose event name was already seen. -/
def validate_adverse_events (events : List EventRec) : List EventRec :=
  let validated_events := events.filter (fun e => decide ((3:ℚ)/10 < getConf e))
  dedupAux [] validated_events

/-! ### Specification-side definitions (written from the spec's wording, to be
compared against the code-side functions above) -/

/-- The +0.1 keyword-redundancy boost. -/
def kwBoost (text : Str) (event_data : EventData) : ℚ :=
  if 1 < (event_data.keywords.countP (fun kw => strContains text kw)) then 1/10 else 0

/-- The +0.1 severity-indicator boost. -/
def sevBoost (text : Str) (event_data : EventData) : ℚ :=
  if event_data.severity_indicators.any (fun p => p.2.any (fun i => strContains text i))
  then 1/10 else 0

/-- The −0.3 negation penalty (0 when it does not apply). -/
def negPenalty (text keyword : Str) : ℚ :=
  match strFind text keyword with
  | some keyword_pos =>
      if 0 < keyword_pos then
        if negations.any (fun neg =>
            strContains (pySlice text (keyword_pos - 20) keyword_pos) neg)
        then 3/10 else 0
      else 0
  | none => 0

/-- The confidence value before the final clamp. -/
def rawConfidence (text keyword : Str) (event_data : EventData) : ℚ :=
  7/10 + kwBoost text event_data + sevBoost text event_data - negPenalty text keyword

/-- From the spec: a negation word occurs in the 20 characters immediately
preceding the matched keyword's start position (its first occurrence). -/
def claimNegated (text keyword : Str) : Bool :=
  match strFind text keyword with
  | some keyword_pos =>
      negations.any (fun neg =>
        strContains (pySlice text (keyword_pos - 20) keyword_pos) neg)
  | none => false

/-- From the spec: 0.7 base, +0.1 when more than one trigger keyword occurs,
+0.1 when any severity indicator from any tier occurs, −0.3 when a negation
word occurs in the 20 characters preceding the matched keyword, clamped to
[0.1, 1.0]. -/
def claimConfidence (text keyword : Str) (event_data : EventData) : ℚ :=
  min 1 (max (1/10)
    (7/10
      + (if 1 < (event_data.keywords.countP (fun kw => strContains text kw))
         then 1/10 else 0)
      + (if event_data.severity_indicators.any (fun p => p.2.any (fun i => strContains text i))
         then 1/10 else 0)
      - (if claimNegated text keyword then 3/10 else 0)))

/-- Deduplication as the specification words it: keep each record, dropping
from the remainder every record with the same event name. -/
def claimDedup : List EventRec → List EventRec
  | [] => []
  | e :: rest =>
      e :: claimDedup (rest.filter (fun e2 => decide ¬ (e2.event = e.event)))
termination_by l => l.length
decreasing_by
  simp only [List.length_cons]
  exact Nat.lt_succ_of_le (List.length_filter_le _ _)

/-- The filter predicate of `validate_adverse_events`. -/
def passFilter (e : EventRec) : Bool := decide ((3:ℚ)/10 < getConf e)

/-! ### Concrete inputs used in evaluations -/

/-- End-to-end scenario 1 of the spec. -/
def scenarioText : Str :=
  "The device got very hot and burned my hand during use. This is dangerous!".data

/-- The detection the detector produces for the input "small cut". -/
def dSmallCut : Detection :=
  { event := "injury".data, severity := "minor".data, confidence := 4/5
    safety_category := "Physical Harm".data, detected_phrase := "small cut".data }

/-- A one-keyword lexicon entry used to instantiate universally quantified
statements. -/
def edCut : EventData := { keywords := ["cut".data], severity_indicators := [] }

def recBurnHigh : EventRec := { confidence := some (1/2), event := some "burn".data }

def recInjuryLow : EventRec := { confidence := some (1/5), event := some "injury".data }

def recBurnDup : EventRec := { confidence := some (3/5), event := some "burn".data }

def c3Input : List EventRec := [recBurnHigh, recInjuryLow, recBurnDup]

/-- A record with no confidence field. -/
def recNoConf : EventRec := { confidence := none, event := some "burn".data }

attribute [local semireducible] Rat.add Rat.mul Rat.inv Rat.sub Rat.ofScientific

set_option maxRecDepth 1000000

/-! ### Basic facts about the string model -/

theorem pyLower_length (s : Str) : (pyLower s).length = s.length := by
  simp [pyLower]

/-- An occurrence reported by `strFind` lies entirely inside the haystack. -/
theorem strFind_some_bound {hay need : Str} {pos : Nat}
    (h : strFind hay need = some pos) : pos + need.length ≤ hay.length := by
  induction hay generalizing pos with
  | nil =>
      unfold strFind at h
      split at h
      · rename_i hp
        obtain ⟨rfl⟩ : pos = 0 := by simpa using h.symm
        have := (List.isPrefixOf_iff_prefix.mp hp).length_le
        simpa using this
      · simp at h
  | cons c t ih =>
      unfold strFind at h
      split at h
      · rename_i hp
        obtain ⟨rfl⟩ : pos = 0 := by simpa using h.symm
        simpa using (List.isPrefixOf_iff_prefix.mp hp).length_le
      · simp only [Option.map_eq_some'] at h
        obtain ⟨q, hq, rfl⟩ := h
        have := ih hq
        simp only [List.length_cons]
        omega

/-! ### Characterisation of `calculate_confidence` -/

theorem calculate_confidence_eq_clamp_raw (text keyword : Str) (event_data : EventData) :
    calculate_confidence text keyword event_data
      = min 1 (max (1/10) (rawConfidence text keyword event_data)) := by
  unfold calculate_confidence rawConfidence kwBoost sevBoost negPenalty
  rcases h : strFind text keyword with _ | pos <;>
    simp only [h] <;> split_ifs <;> ring_nf

theorem rawConfidence_bounds (text keyword : Str) (event_data : EventData) :
    2/5 ≤ rawConfidence text keyword event_data ∧
      rawConfidence text keyword event_data ≤ 9/10 := by
  unfold rawConfidence kwBoost sevBoost negPenalty
  rcases strFind text keyword with _ | pos <;> dsimp only <;> split_ifs <;> norm_num

/-- The clamp in `calculate_confidence` is never active: the result equals the
unclamped value. -/
theorem calculate_confidence_eq_raw (text keyword : Str) (event_data : EventData) :
    calculate_confidence text keyword event_data
      = rawConfidence text keyword event_data := by
  rw [calculate_confidence_eq_clamp_raw]
  obtain ⟨h1, h2⟩ := rawConfidence_bounds text keyword event_data
  rw [max_eq_right (le_trans (by norm_num) h1), min_eq_right (le_trans h2 (by norm_num))]

theorem calculate_confidence_bounds (text keyword : Str) (event_data : EventData) :
    2/5 ≤ calculate_confidence text keyword event_data ∧
      calculate_confidence text keyword event_data ≤ 9/10 := by
  rw [calculate_confidence_eq_raw]
  exact rawConfidence_bounds text keyword event_data

/-- Every detection's confidence comes from `calculate_confidence` on the
lowered text. -/
theorem mem_detect_confidence {text : Str} {d : Detection}
    (hd : d ∈ detect_adverse_events text) :
    ∃ keyword event_data,
      d.confidence = calculate_confidence (pyLower text) keyword event_data := by
  unfold detect_adverse_events at hd
  simp only [List.mem_filterMap] at hd
  obtain ⟨p, hp, hfp⟩ := hd
  cases hfind : p.2.keywords.find? (fun kw => strContains (pyLower text) kw) with
  | none => rw [hfind] at hfp; simp at hfp
  | some kw =>
      rw [hfind] at hfp
      simp only [Option.map_some', Option.some.injEq] at hfp
      exact ⟨kw, p.2, by rw [← hfp]⟩

theorem negations_no_match_empty :
    (negations.any (fun neg => strContains [] neg)) = false := by decide

theorem negPenalty_eq_claimNegated (text keyword : Str) :
    negPenalty text keyword = if claimNegated text keyword then 3/10 else 0 := by
  unfold negPenalty claimNegated
  rcases strFind text keyword with _ | pos <;> dsimp only
  · simp
  · rcases Nat.eq_zero_or_pos pos with rfl | hpos
    · have hsl : pySlice text (0 - 20) 0 = [] := by simp [pySlice]
      rw [hsl, negations_no_match_empty]
      simp
    · simp [hpos]

theorem calculate_confidence_eq_claim (text keyword : Str) (event_data : EventData) :
    calculate_confidence text keyword event_data
      = claimConfidence text keyword event_data := by
  rw [calculate_confidence_eq_clamp_raw]
  unfold claimConfidence rawConfidence kwBoost sevBoost
  rw [negPenalty_eq_claimNegated]

/-! ### Characterisation of `validate_adverse_events` -/

theorem dedupAux_eq_claimDedup (l : List EventRec) :
    ∀ seen : List (Option Str),
      dedupAux seen l = claimDedup (l.filter (fun e => decide ¬ (e.event ∈ seen))) := by
  induction l with
  | nil => intro seen; simp [dedupAux, claimDedup]
  | cons e rest ih =>
      intro seen
      by_cases he : e.event ∈ seen
      · rw [List.filter_cons_of_neg (by simpa using he)]
        simpa [dedupAux, he] using ih seen
      · have hfil : rest.filter (fun a => decide ¬ (a.event ∈ e.event :: seen))
            = rest.filter (fun a => decide ¬ (a.event = e.event) && decide ¬ (a.event ∈ seen)) := by
          apply List.filter_congr
          intro a _
          rw [← Bool.decide_and, decide_eq_decide]
          simp [List.mem_cons, not_or]
        rw [List.filter_cons_of_pos (by simpa using he)]
        rw [claimDedup, List.filter_filter]
        simp only [dedupAux, he, if_neg, ite_false]
        rw [ih (e.event :: seen), hfil]

theorem validate_eq_claimDedup (events : List EventRec) :
    validate_adverse_events events = claimDedup (events.filter passFilter) := by
  unfold validate_adverse_events passFilter
  rw [dedupAux_eq_claimDedup]
  have hfil : (events.filter (fun e => decide ((3:ℚ)/10 < getConf e))).filter
        (fun e => decide ¬ (e.event ∈ ([] : List (Option Str))))
      = events.filter (fun e => decide ((3:ℚ)/10 < getConf e)) := by
    apply List.filter_eq_self.mpr
    intro a _
    simp
  rw [hfil]

theorem claimDedup_sublist (l : List EventRec) : List.Sublist (claimDedup l) l := by
  induction l using claimDedup.induct with
  | case1 => simp [claimDedup]
  | case2 e rest ih =>
      rw [claimDedup]
      exact (ih.trans (List.filter_sublist rest)).cons₂ e

theorem claimDedup_names_nodup (l : List EventRec) :
    ((claimDedup l).map EventRec.event).Nodup := by
  induction l using claimDedup.induct with
  | case1 => simp [claimDedup]
  | case2 e rest ih =>
      rw [claimDedup]
      simp only [List.map_cons, List.nodup_cons]
      refine ⟨?_, ih⟩
      intro hmem
      simp only [List.mem_map] at hmem
      obtain ⟨a, ha, hae⟩ := hmem
      have hmf := (claimDedup_sublist _).subset ha
      rw [List.mem_filter] at hmf
      have h2 := hmf.2
      simp only [decide_eq_true_eq] at h2
      exact h2 hae

theorem claimDedup_eq_self (l : List EventRec) :
    ((l.map EventRec.event).Nodup) → claimDedup l = l := by
  induction l using claimDedup.induct with
  | case1 => intro _; simp [claimDedup]
  | case2 e rest ih =>
      intro h
      simp only [List.map_cons, List.nodup_cons] at h
      have hfil : rest.filter (fun e2 => decide ¬ (e2.event = e.event)) = rest := by
        apply List.filter_eq_self.mpr
        intro a ha
        simp only [decide_eq_true_eq]
        exact fun hc => h.1 (List.mem_map.mpr ⟨a, ha, hc⟩)
      rw [claimDedup, hfil]
      rw [hfil] at ih
      rw [ih h.2]

theorem validate_sublist (events : List EventRec) :
    List.Sublist (validate_adverse_events events) events := by
  rw [validate_eq_claimDedup]
  exact (claimDedup_sublist _).trans (List.filter_sublist events)

theorem mem_validate_passes {e : EventRec} {events : List EventRec}
    (h : e ∈ validate_adverse_events events) : (3:ℚ)/10 < getConf e := by
  rw [validate_eq_claimDedup] at h
  have hmf := (claimDedup_sublist _).subset h
  rw [List.mem_filter] at hmf
  simpa [passFilter] using hmf.2

theorem validate_names_nodup (events : List EventRec) :
    ((validate_adverse_events events).map EventRec.event).Nodup := by
  rw [validate_eq_claimDedup]
  exact claimDedup_names_nodup _

theorem validate_idem (events : List EventRec) :
    validate_adverse_events (validate_adverse_events events)
      = validate_adverse_events events := by
  rw [validate_eq_claimDedup (validate_adverse_events events)]
  have hfil : (validate_adverse_events events).filter passFilter
      = validate_adverse_events events := by
    apply List.filter_eq_self.mpr
    intro a ha
    simpa [passFilter] using mem_validate_passes ha
  rw [hfil]
  exact claimDedup_eq_self _ (validate_names_nodup events)

/-! ### Detector shape lemmas -/

theorem filterMap_guard_sublist {α β γ : Type} (l : List α) (g : α → β) (h : α → Option γ) :
    List.Sublist (l.filterMap (fun a => (h a).map (fun _ => g a))) (l.map g) := by
  induction l with
  | nil => simp
  | cons a t ih =>
      cases hh : h a with
      | none =>
          simp only [List.filterMap_cons, hh, Option.map_none', List.map_cons]
          exact ih.cons _
      | some c =>
          simp only [List.filterMap_cons, hh, Option.map_some', List.map_cons]
          exact ih.cons₂ _

theorem detect_events_sublist (text : Str) :
    List.Sublist ((detect_adverse_events text).map Detection.event)
      (SAFETY_CONCERNS.map (fun p => underscoreToSpace p.1)) := by
  simp only [detect_adverse_events]
  rw [List.map_filterMap]
  have he : ∀ p : Str × EventData,
      ((p.2.keywords.find? (fun kw => strContains (pyLower text) kw)).map (fun kw =>
        ({ event := underscoreToSpace p.1
           severity := determine_severity (pyLower text) p.2.severity_indicators
           confidence := calculate_confidence (pyLower text) kw p.2
           safety_category := get_safety_category p.1
           detected_phrase := extract_context text kw 30 } : Detection))).map Detection.event
      = (p.2.keywords.find? (fun kw => strContains (pyLower text) kw)).map
          (fun _ => underscoreToSpace p.1) := by
    intro p
    rw [Option.map_map]
    rfl
  simp only [he]
  exact filterMap_guard_sublist SAFETY_CONCERNS (fun p => underscoreToSpace p.1)
    (fun p => p.2.keywords.find? (fun kw => strContains (pyLower text) kw))

theorem safety_event_names_nodup :
    (SAFETY_CONCERNS.map (fun p => underscoreToSpace p.1)).Nodup := by decide

theorem detect_events_nodup (text : Str) :
    ((detect_adverse_events text).map Detection.event).Nodup :=
  (detect_events_sublist text).nodup safety_event_names_nodup

theorem length_filter_le_one_of_nodup_map {α β : Type} [DecidableEq β]
    (f : α → β) (l : List α) (hn : (l.map f).Nodup) (c : β) :
    (l.filter (fun x => decide (f x = c))).length ≤ 1 := by
  induction l with
  | nil => simp
  | cons a t ih =>
      simp only [List.map_cons, List.nodup_cons] at hn
      by_cases hac : f a = c
      · rw [List.filter_cons_of_pos (by simpa using hac)]
        simp only [List.length_cons]
        have hnil : t.filter (fun x => decide (f x = c)) = [] := by
          rw [List.filter_eq_nil_iff]
          intro x hx
          simp only [decide_eq_true_eq]
          intro hfx
          exact hn.1 (List.mem_map.mpr ⟨x, hx, by rw [hfx, hac]⟩)
        rw [hnil]
        simp
      · rw [List.filter_cons_of_neg (by simpa using hac)]
        exact ih hn.2

theorem detect_count_category (text : Str) (c : Str) :
    ((detect_adverse_events text).filter (fun d => decide (d.event = c))).length ≤ 1 :=
  length_filter_le_one_of_nodup_map Detection.event (detect_adverse_events text)
    (detect_events_nodup text) c

theorem detect_eq_nil_of_no_keyword (text : Str)
    (h : ∀ p ∈ SAFETY_CONCERNS, ∀ kw ∈ p.2.keywords,
      strContains (pyLower text) kw = false) :
    detect_adverse_events text = [] := by
  simp only [detect_adverse_events]
  rw [List.filterMap_eq_nil_iff]
  intro p hp
  rw [Option.map_eq_none']
  rw [List.find?_eq_none]
  intro kw hkw
  simp [h p hp kw hkw]

theorem mem_detect_confidence_bounds {text : Str} {d : Detection}
    (hd : d ∈ detect_adverse_events text) :
    2/5 ≤ d.confidence ∧ d.confidence ≤ 9/10 := by
  obtain ⟨kw, event_data, hc⟩ := mem_detect_confidence hd
  rw [hc]
  exact calculate_confidence_bounds _ _ _

/-! ### The claims -/

/-- Claim C1: every detection's severity is one of mild, moderate, severe,
`determine_severity` scanning tiers declared as mild, moderate, severe. This is
FALSE of the code: the first severity tier is declared with key "minor", not
"mild", and `determine_severity` returns that key verbatim — contradicting its
own docstring ("Returns: Severity level: mild, moderate, or severe"). On the
input "small cut" the detector emits a detection whose severity is "minor". -/
theorem c1_severity_minor_escapes_enum :
    (detect_adverse_events "small cut".data).map Detection.severity = ["minor".data] ∧
      ¬ ("minor".data = "mild".data ∨ "minor".data = "moderate".data ∨
         "minor".data = "severe".data) :=
  ⟨by decide, by decide⟩

/-- Claim C2: `calculate_confidence` equals the spec's formula — 0.7 base,
+0.1 for more than one trigger keyword, +0.1 for any severity indicator, −0.3
for a negation word in the 20 characters preceding the matched keyword's first
occurrence, clamped to [0.1, 1.0] — and consequently every detection's
confidence lies in [0.1, 1.0]. -/
theorem c2_confidence_formula (text keyword : Str) (event_data : EventData) :
    calculate_confidence text keyword event_data
        = claimConfidence text keyword event_data ∧
      ∀ d ∈ detect_adverse_events text, 1/10 ≤ d.confidence ∧ d.confidence ≤ 1 := by
  refine ⟨calculate_confidence_eq_claim text keyword event_data, ?_⟩
  intro d hd
  obtain ⟨h1, h2⟩ := mem_detect_confidence_bounds hd
  constructor <;> linarith

/-- Witness for C2: the formula and the [0.1, 1.0] bounds evaluated on the
input "small cut" and its injury detection (confidence 0.8). -/
theorem c2_confidence_formula_witness :
    (calculate_confidence "small cut".data "cut".data edCut
        = claimConfidence "small cut".data "cut".data edCut) ∧
      ((1:ℚ)/10 ≤ dSmallCut.confidence ∧ dSmallCut.confidence ≤ 1) := by
  obtain ⟨h1, h2⟩ := c2_confidence_formula "small cut".data "cut".data edCut
  exact ⟨h1, h2 dSmallCut (by decide)⟩

/-- Claim C3: `validate_adverse_events` is exactly the confidence-filter
(keep strictly greater than 0.3) followed by first-occurrence deduplication on
the event name, preserves relative order (it is a sublist of its input), never
returns a record with confidence ≤ 0.3, and never returns two records with the
same event name. -/
theorem c3_validate_filter_dedup (x : List EventRec) :
    validate_adverse_events x = claimDedup (x.filter passFilter) ∧
      List.Sublist (validate_adverse_events x) x ∧
      (∀ e ∈ validate_adverse_events x, ¬ (getConf e ≤ 3/10)) ∧
      ((validate_adverse_events x).map EventRec.event).Nodup := by
  refine ⟨validate_eq_claimDedup x, validate_sublist x, ?_, validate_names_nodup x⟩
  intro e he
  exact not_le.mpr (mem_validate_passes he)

/-- Witness for C3: a three-record list (0.5 burn, 0.2 injury, 0.6 burn) whose
validation keeps exactly the first burn record. -/
theorem c3_validate_filter_dedup_witness :
    (validate_adverse_events c3Input = claimDedup (c3Input.filter passFilter)) ∧
      ¬ (getConf recBurnHigh ≤ 3/10) := by
  obtain ⟨h1, _, h3, _⟩ := c3_validate_filter_dedup c3Input
  exact ⟨h1, h3 recBurnHigh (by decide)⟩

/-- Counterexample to claim C4 as stated: for the spec's end-to-end scenario 1
input, the burn detection's severity is NOT moderate or severe (none of the
burn tier indicators occurs in the text, so severity falls back to "mild"). -/
theorem c4_scenario1_counterexample :
    ¬ ∃ d ∈ detect_adverse_events scenarioText,
        d.event = "burn".data ∧
        (d.severity = "moderate".data ∨ d.severity = "severe".data) ∧
        strContains d.detected_phrase "burned".data = true ∧
        7/10 ≤ d.confidence := by
  decide

/-- Claim C4 (amended): for the scenario 1 input the detector returns a burn
detection whose severity is "mild", whose detected phrase contains "burned",
and whose confidence is at least 0.7 (it is 0.8). -/
theorem c4_scenario1_amended :
    ∃ d ∈ detect_adverse_events scenarioText,
      d.event = "burn".data ∧ d.severity = "mild".data ∧
      strContains d.detected_phrase "burned".data = true ∧
      7/10 ≤ d.confidence := by
  decide

/-- Claim C5: at most one detection per lexicon category — the returned list
is never longer than the lexicon (six categories), and for every event name at
most one returned detection carries it. -/
theorem c5_at_most_one_per_category (text : Str) :
    (detect_adverse_events text).length ≤ SAFETY_CONCERNS.length ∧
      SAFETY_CONCERNS.length = 6 ∧
      (∀ c : Str,
        ((detect_adverse_events text).filter (fun d => decide (d.event = c))).length ≤ 1) := by
  refine ⟨?_, by decide, fun c => detect_count_category text c⟩
  simp only [detect_adverse_events]
  exact List.length_filterMap_le _ _

/-- Claim C6: when no trigger keyword of any category occurs in the lowered
text, `detect_adverse_events` returns the empty list. -/
theorem c6_no_keyword_empty_result (text : Str)
    (h : ∀ p ∈ SAFETY_CONCERNS, ∀ kw ∈ p.2.keywords,
      strContains (pyLower text) kw = false) :
    detect_adverse_events text = [] :=
  detect_eq_nil_of_no_keyword text h

/-- Witness for C6: the empty string and a whitespace-only string contain no
trigger keyword and yield no detections. -/
theorem c6_no_keyword_empty_result_witness :
    detect_adverse_events "".data = [] ∧ detect_adverse_events "   ".data = [] :=
  ⟨c6_no_keyword_empty_result "".data (by decide),
   c6_no_keyword_empty_result "   ".data (by decide)⟩

/-- Claim C7: validation is idempotent. -/
theorem c7_validate_idempotent (x : List EventRec) :
    validate_adverse_events (validate_adverse_events x) = validate_adverse_events x :=
  validate_idem x

/-- Claim C8: detection and validation are total and every internal
string-indexing step stays in bounds: a located keyword occurrence lies inside
the text, the context window satisfies start ≤ stop ≤ length, a keyword that
cannot be located makes `extract_context` return the keyword itself, the
detection list is bounded, and validation returns a sub-collection of its
input. -/
theorem c8_total_and_guarded (text keyword : Str) :
    (∀ pos, strFind (pyLower text) (pyLower keyword) = some pos →
        pos + keyword.length ≤ text.length ∧
        pos - 30 ≤ min text.length (pos + keyword.length + 30) ∧
        min text.length (pos + keyword.length + 30) ≤ text.length) ∧
      (strFind (pyLower text) (pyLower keyword) = none →
        extract_context text keyword 30 = keyword) ∧
      (detect_adverse_events text).length ≤ SAFETY_CONCERNS.length ∧
      (∀ x : List EventRec, List.Sublist (validate_adverse_events x) x) := by
  refine ⟨?_, ?_, ?_, fun x => validate_sublist x⟩
  · intro pos hpos
    have hb := strFind_some_bound hpos
    rw [pyLower_length, pyLower_length] at hb
    refine ⟨hb, ?_, ?_⟩ <;> omega
  · intro hnone
    unfold extract_context
    rw [hnone]
  · simp only [detect_adverse_events]
    exact List.length_filterMap_le _ _

/-- Witness for C8: the in-bounds facts at the occurrence of "burn" in
"a burn", and the fallback of `extract_context` on "xyz" where "burn" does not
occur. -/
theorem c8_total_and_guarded_witness :
    (2 + "burn".data.length ≤ "a burn".data.length ∧
      2 - 30 ≤ min "a burn".data.length (2 + "burn".data.length + 30) ∧
      min "a burn".data.length (2 + "burn".data.length + 30) ≤ "a burn".data.length) ∧
    extract_context "xyz".data "burn".data 30 = "burn".data :=
  ⟨(c8_total_and_guarded "a burn".data "burn".data).1 2 (by decide),
   (c8_total_and_guarded "xyz".data "burn".data).2.1 (by decide)⟩

/-- Claim C9: under exact rational arithmetic the clamp in
`calculate_confidence` is never attained — the result always equals the
unclamped value and lies in [0.4, 0.9] — and hence every detection's
confidence lies in [0.4, 0.9]. -/
theorem c9_confidence_never_clamped (text : Str) :
    (∀ keyword event_data,
        calculate_confidence text keyword event_data
            = rawConfidence text keyword event_data ∧
          2/5 ≤ calculate_confidence text keyword event_data ∧
          calculate_confidence text keyword event_data ≤ 9/10) ∧
      (∀ d ∈ detect_adverse_events text, 2/5 ≤ d.confidence ∧ d.confidence ≤ 9/10) := by
  refine ⟨fun keyword event_data =>
    ⟨calculate_confidence_eq_raw text keyword event_data,
     calculate_confidence_bounds text keyword event_data⟩, ?_⟩
  intro d hd
  exact mem_detect_confidence_bounds hd

/-- Witness for C9: the bounds evaluated on the injury detection of
"small cut" (confidence 0.8). -/
theorem c9_confidence_never_clamped_witness :
    (2:ℚ)/5 ≤ dSmallCut.confidence ∧ dSmallCut.confidence ≤ 9/10 :=
  (c9_confidence_never_clamped "small cut".data).2 dSmallCut (by decide)

/-- Claim C10: a record with no confidence field is treated as confidence 0
and always dropped by the filter, and `validate_adverse_events` never returns
a record whose confidence field is missing. -/
theorem c10_missing_confidence_dropped (x : List EventRec) (e : EventRec) :
    (e.confidence = none →
        getConf e = 0 ∧ passFilter e = false ∧ e ∉ validate_adverse_events x) ∧
      (∀ d ∈ validate_adverse_events x, d.confidence ≠ none) := by
  constructor
  · intro hn
    have h0 : getConf e = 0 := by simp [getConf, hn]
    refine ⟨h0, ?_, ?_⟩
    · simp [passFilter, h0]
      norm_num
    · intro hmem
      have hlt := mem_validate_passes hmem
      rw [h0] at hlt
      norm_num at hlt
  · intro d hd hn
    have hlt := mem_validate_passes hd
    rw [show getConf d = 0 by simp [getConf, hn]] at hlt
    norm_num at hlt

/-- Witness for C10: a record without confidence is dropped even though its
event name is unique, while a 0.5-confidence record survives. -/
theorem c10_missing_confidence_dropped_witness :
    (getConf recNoConf = 0 ∧ passFilter recNoConf = false ∧
      recNoConf ∉ validate_adverse_events [recNoConf, recBurnHigh]) ∧
    recBurnHigh.confidence ≠ none := by
  obtain ⟨h1, h2⟩ := c10_missing_confidence_dropped [recNoConf, recBurnHigh] recNoConf
  exact ⟨h1 rfl, h2 recBurnHigh (by decide)⟩
